import Mathlib

/-
Shallow embedding of the `smudh` package (SM UDH parsing / fragment reassembly).

Modelling conventions:
* Go octets are `Nat` values below 256; Go byte slices and Go strings are
  `List Nat` (a Go string is an arbitrary byte sequence, not necessarily
  valid UTF-8, so Lean's `String` cannot represent it).
* A Go function that can return an error or panic is embedded as a function
  into `POutcome`; an out-of-range slice index and a method call through a
  nil pointer are both runtime panics and are embedded as `POutcome.panic`.
* External text codecs (gostrutils GSM 03.38, the golang.org/x/text charmap,
  UTF-16 and Japanese/Korean decoders) are external collaborators of the
  package; they are modelled as total byte-sequence functions because the
  x/text decoders substitute U+FFFD for undecodable input instead of
  failing.  No claim depends on the character tables themselves, only on
  the totality (or, for the nil-decoder path, the panic) of the decode step.
-/

namespace Smudh

/-- Errors declared by the package (errors.go) together with the error the
standard hex decoder reports for an invalid digit. -/
inductive PError where
  | hexStringMustHaveAnEvenNumberOfChars
  | invalidHexDigit
  | binaryTextLengthIsNotEvenForUTF16Decoding
  | inputTooShortForUDH
  | udhLengthExceedsInputLength
  | invalidReferenceNumber
  | unsupportedIEI
  | unsupportedEncoding
  | unknownEncoding
  deriving DecidableEq, Repr

/-- Outcome of a Go computation: normal value, returned error, or runtime
panic (index out of range, nil-pointer dereference). -/
inductive POutcome (α : Type) where
  | ok (val : α)
  | err (e : PError)
  | panic
  deriving DecidableEq, Repr

/-- The `Encoding` enumeration from encoding.go (iota order 0..16). -/
inductive Encoding where
  | GSM
  | ASCII
  | Binary8Bit1
  | Latin1
  | Binary8Bit2
  | JIS
  | Cyrillic
  | Hebrew
  | UCS2
  | Pictogram
  | ISO2022JP
  | Reserved1
  | Reserved2
  | EXTJIS
  | KSC5601
  | GSMExtended
  | UTF8
  deriving DecidableEq, Repr

/-- The numeric value of an `Encoding` tag (its iota position in encoding.go). -/
def encodingToByte : Encoding → Nat
  | .GSM => 0
  | .ASCII => 1
  | .Binary8Bit1 => 2
  | .Latin1 => 3
  | .Binary8Bit2 => 4
  | .JIS => 5
  | .Cyrillic => 6
  | .Hebrew => 7
  | .UCS2 => 8
  | .Pictogram => 9
  | .ISO2022JP => 10
  | .Reserved1 => 11
  | .Reserved2 => 12
  | .EXTJIS => 13
  | .KSC5601 => 14
  | .GSMExtended => 15
  | .UTF8 => 16

/-- Partial inverse of `encodingToByte`. -/
def byteToEncoding : Nat → Option Encoding
  | 0 => some .GSM
  | 1 => some .ASCII
  | 2 => some .Binary8Bit1
  | 3 => some .Latin1
  | 4 => some .Binary8Bit2
  | 5 => some .JIS
  | 6 => some .Cyrillic
  | 7 => some .Hebrew
  | 8 => some .UCS2
  | 9 => some .Pictogram
  | 10 => some .ISO2022JP
  | 11 => some .Reserved1
  | 12 => some .Reserved2
  | 13 => some .EXTJIS
  | 14 => some .KSC5601
  | 15 => some .GSMExtended
  | 16 => some .UTF8
  | _ => none

/-- `MessageElements` from udh.go.  Field defaults are the Go zero values,
so `{ }` is the freshly declared `var elements MessageElements`. -/
structure MessageElements where
  headerLength : Nat := 0
  element : Nat := 0
  elementLength : Nat := 0
  reference : List Nat := []
  totalParts : Nat := 0
  currentPart : Nat := 0
  rawMessage : List Nat := []
  message : List Nat := []
  encoding : Encoding := .GSM
  standalone : Bool := false
  deriving DecidableEq, Repr

instance : Inhabited MessageElements := ⟨{}⟩

/-- The bytes of an ASCII Lean string, used to write hex inputs readably. -/
def strBytes (s : String) : List Nat := s.data.map Char.toNat

/-- Value of one hex digit character (by ASCII code), as in encoding/hex. -/
def hexDigitVal (c : Nat) : Option Nat :=
  if 48 ≤ c ∧ c ≤ 57 then some (c - 48)
  else if 97 ≤ c ∧ c ≤ 102 then some (c - 87)
  else if 65 ≤ c ∧ c ≤ 70 then some (c - 55)
  else none

/-- `hex.DecodeString`: two hex characters per octet; fails on a stray
character or an odd tail (the package checks oddness before calling it). -/
def hexDecode : List Nat → Option (List Nat)
  | [] => some []
  | [_] => none
  | h :: l :: rest =>
    match hexDigitVal h, hexDigitVal l, hexDecode rest with
    | some hv, some lv, some tl => some ((hv * 16 + lv) :: tl)
    | _, _, _ => none

/-- Lowercase hex digit character (ASCII code) of a value below 16. -/
def hexDigitChar (n : Nat) : Nat := if n < 10 then 48 + n else 87 + n

/-- `hex.EncodeToString`: lowercase hexadecimal rendering of a byte
sequence, returned as the bytes of the resulting Go string. -/
def hexEncodeToString (l : List Nat) : List Nat :=
  l.flatMap fun b => [hexDigitChar (b / 16), hexDigitChar (b % 16)]

/-- UTF-8 encoding of a code point (what Go produces when it writes a rune). -/
def utf8EncodeChar (c : Nat) : List Nat :=
  if c < 0x80 then [c]
  else if c < 0x800 then [0xC0 + c / 64, 0x80 + c % 64]
  else if c < 0x10000 then [0xE0 + c / 4096, 0x80 + (c / 64) % 64, 0x80 + c % 64]
  else [0xF0 + c / 262144, 0x80 + (c / 4096) % 64, 0x80 + (c / 64) % 64, 0x80 + c % 64]

/-- External text codec table for GSM 03.38 (gostrutils `GSM0338ToUTF8`).
The character table is an external collaborator of this package.  The model
maps each payload byte to a code point and re-encodes it; all claims use
only the fact that this decode path is total (it never errors or panics). -/
def gsm0338ToUTF8 (raw : List Nat) : List Nat := raw.flatMap utf8EncodeChar

/-- The decoders handed to `setTransformCharmap` by `encodeMessage`. -/
inductive Decoder where
  | iso8859_1
  | utf16be
  | iso8859_5
  | iso8859_8
  | iso2022jp
  | euckr
  | eucjp
  deriving DecidableEq, Repr

/-- One UTF-16BE code unit per byte pair; unpaired surrogate units decode to
U+FFFD.  Combining of surrogate pairs into astral code points is elided:
no claim depends on decoded UCS2 text values, only on totality. -/
def utf16beDecode : List Nat → List Nat
  | hi :: lo :: rest =>
    let u := hi * 256 + lo
    utf8EncodeChar (if 0xD800 ≤ u ∧ u < 0xE000 then 0xFFFD else u) ++ utf16beDecode rest
  | _ => []

/-- External character decoding (golang.org/x/text).  The x/text decoders
replace undecodable input with U+FFFD and never return a stream error, so
every decoder is modelled as a total function; the single-byte and
multi-byte character tables themselves are external collaborators and no
claim depends on their values (ISO 8859-1 is modelled exactly: each byte is
the equal code point). -/
def decodeWith : Decoder → List Nat → List Nat
  | .utf16be, raw => utf16beDecode raw
  | _, raw => raw.flatMap utf8EncodeChar

/-- `setTransformCharmap` from udh.go.  A `none` decoder is Go's nil
`*encoding.Decoder`: `transform.NewReader` immediately calls a method on
it, dereferencing the nil pointer, which is a runtime panic. -/
def setTransformCharmap : Option Decoder → List Nat → POutcome (List Nat)
  | none, _ => .panic
  | some d, raw => .ok (decodeWith d raw)

/-- `encodeMessage` from udh.go, as a function from the encoding tag and the
raw payload to the decoded `Message` text.  In the `Binary8Bit1/2` branch
the Go code assigns the hex rendering to `elem.Message` and then calls
`setTransformCharmap(decoder)` while `decoder` is still its nil zero value;
the assignment is therefore dead and the call panics. -/
def encodeMessage (enc : Encoding) (raw : List Nat) : POutcome (List Nat) :=
  match enc with
  | .GSM | .GSMExtended => .ok (gsm0338ToUTF8 raw)
  | .ASCII | .UTF8 => .ok raw
  | .Latin1 => setTransformCharmap (some .iso8859_1) raw
  | .Binary8Bit1 | .Binary8Bit2 =>
    let _deadStore := hexEncodeToString raw
    setTransformCharmap none raw
  | .UCS2 =>
    if raw.length % 2 ≠ 0 then .err .binaryTextLengthIsNotEvenForUTF16Decoding
    else setTransformCharmap (some .utf16be) raw
  | .Cyrillic => setTransformCharmap (some .iso8859_5) raw
  | .Hebrew => setTransformCharmap (some .iso8859_8) raw
  | .ISO2022JP => setTransformCharmap (some .iso2022jp) raw
  | .KSC5601 => setTransformCharmap (some .euckr) raw
  | .JIS | .EXTJIS => setTransformCharmap (some .eucjp) raw
  | .Pictogram | .Reserved1 | .Reserved2 => .err .unsupportedEncoding

/-- `rfc822Element` constant from udh.go. -/
def rfc822Element : Nat := 0x20

/-- The switch on the information-element identifier inside `ParseElements`
(udh.go lines 101-115), entered only for a UDH-classified sequence.  The
`0x00` arm reads octets 3, 4 and 5 with no bounds check, so a too-short
sequence panics; the `0x08` arm first requires header length at least 6
(which puts every later read in range).  `RawMessage` is the assignment
made right after the switch. -/
def parseIEI (binary : List Nat) (tmpLength : Nat) (enc : Encoding) :
    POutcome MessageElements :=
  let e1 : MessageElements :=
    { encoding := enc
      headerLength := binary.getD 0 0
      element := binary.getD 1 0
      elementLength := binary.getD 2 0 }
  if binary.getD 1 0 = 0x00 then
    match binary[3]?, binary[4]?, binary[5]? with
    | some r, some tp, some cp =>
      .ok { e1 with
              reference := [r]
              totalParts := tp
              currentPart := cp
              rawMessage := binary.drop (tmpLength + 1) }
    | _, _, _ => .panic
  else if binary.getD 1 0 = 0x08 then
    if tmpLength < 6 then .err .inputTooShortForUDH
    else
      match binary[3]?, binary[4]?, binary[5]?, binary[6]? with
      | some r3, some r4, some tp, some cp =>
        .ok { e1 with
                reference := [r3, r4]
                totalParts := tp
                currentPart := cp
                rawMessage := binary.drop (tmpLength + 1) }
      | _, _, _, _ => .panic
  else .err .unsupportedIEI

/-- Classification step of `ParseElements` (udh.go lines 92-125): decide
between UDH-bearing, standalone and the fewer-than-two-octets quirk, and
fill every field except the decoded text.  Octets 0, 1 and 2 are read with
`getD` because the surrounding guards put them in range (the length guard
for 0 and 1; the classification condition forces at least 3 octets for 2). -/
def classifyElements (binary : List Nat) (enc : Encoding) : POutcome MessageElements :=
  if 2 ≤ binary.length then
    let tmpLength := binary.getD 0 0
    if 0 < tmpLength ∧ tmpLength < binary.length - 1 ∧ binary.getD 1 0 < rfc822Element then
      if binary.length < tmpLength + 1 then .err .udhLengthExceedsInputLength
      else parseIEI binary tmpLength enc
    else
      .ok { encoding := enc
            standalone := true
            reference := [0]
            totalParts := 1
            currentPart := 1
            rawMessage := binary }
  else .ok { encoding := enc }

/-- `Message.ParseElements` from udh.go: odd-length check, hex decode,
classification, then `encodeMessage` to fill the decoded text. -/
def parseElements (msg : List Nat) (enc : Encoding) : POutcome MessageElements :=
  if msg.length % 2 ≠ 0 then .err .hexStringMustHaveAnEvenNumberOfChars
  else match hexDecode msg with
  | none => .err .invalidHexDigit
  | some binary =>
    match classifyElements binary enc with
    | .ok elements =>
      match encodeMessage enc elements.rawMessage with
      | .ok m => .ok { elements with message := m }
      | .err e => .err e
      | .panic => .panic
    | .err e => .err e
    | .panic => .panic

/-- `MessageFragmentations`: the slice of parts of one logical message.
In Go it holds pointers; pointer identity plays no role in the claims, so
the model keeps the values. -/
abbrev MessageFragmentations := List MessageElements

/-- `HaveAllFragments` from udh.go. -/
def haveAllFragments (msgs : MessageFragmentations) : Bool :=
  match msgs with
  | [] => false
  | first :: rest =>
    if first.standalone then true
    else if first.totalParts = 0 ∧ first.currentPart = 0 ∧ 0 < first.message.length then
      true
    else decide ((first :: rest).length = first.totalParts)

/-- `MessageFragmentations.AddMessageElements`: the Go method's error result
paired with the slice after the call (it appends on success and leaves the
slice untouched on the mismatch path).  `bytes.Equal` on the references is
list equality; Go's nil and empty slices are the same empty list here. -/
def MessageFragmentations.addMessageElements (msgs : MessageFragmentations)
    (info : MessageElements) : Option PError × MessageFragmentations :=
  match msgs with
  | [] => (none, [info])
  | first :: rest =>
    if first.reference = info.reference then (none, (first :: rest) ++ [info])
    else (some .invalidReferenceNumber, first :: rest)

/-- The `Messages` container's map from reference key (the Go string of the
reference bytes) to its fragment slice, as an association list.  The
container's mutex serialises every operation, so the sequential model is
exact for each call. -/
abbrev FragmentMap := List (List Nat × MessageFragmentations)

/-- Go map read `fragments[k]`. -/
def lookupStore (s : FragmentMap) (k : List Nat) : Option MessageFragmentations :=
  match s with
  | [] => none
  | (k1, v) :: t => if k1 = k then some v else lookupStore t k

/-- Go map write `fragments[k] = v`: replace the binding or add it. -/
def storeSet (s : FragmentMap) (k : List Nat) (v : MessageFragmentations) :
    FragmentMap :=
  match s with
  | [] => [(k, v)]
  | (k1, v1) :: t => if k1 = k then (k, v) :: t else (k1, v1) :: storeSet t k v

/-- `Messages.AddMessageElements` from udh.go: delegate to the existing set
for the part's reference key, or create a fresh set holding the part. -/
def Messages.addMessageElements (s : FragmentMap) (info : MessageElements) :
    Option PError × FragmentMap :=
  match lookupStore s info.reference with
  | some frag =>
    match MessageFragmentations.addMessageElements frag info with
    | (none, frag2) => (none, storeSet s info.reference frag2)
    | (some e, _) => (some e, s)
  | none =>
    match MessageFragmentations.addMessageElements [] info with
    | (none, frag2) => (none, storeSet s info.reference frag2)
    | (some e, _) => (some e, s)

/-- `Messages.Add` from udh.go: parse, then the same insertion logic, which
the Go method repeats inline rather than calling `AddMessageElements`. -/
def Messages.add (s : FragmentMap) (enc : Encoding) (message : List Nat) :
    POutcome FragmentMap :=
  match parseElements message enc with
  | .ok info =>
    (match lookupStore s info.reference with
     | some frag =>
       match MessageFragmentations.addMessageElements frag info with
       | (none, frag2) => .ok (storeSet s info.reference frag2)
       | (some e, _) => .err e
     | none =>
       match MessageFragmentations.addMessageElements [] info with
       | (none, frag2) => .ok (storeSet s info.reference frag2)
       | (some e, _) => .err e)
  | .err e => .err e
  | .panic => .panic

/-- Construction invariant of the `Messages` map: every stored fragment
slice is non-empty and its first member's reference equals its key (a set
is only ever created with its first part under that part's reference). -/
abbrev storeInv (s : FragmentMap) : Prop :=
  ∀ kv ∈ s, kv.2 ≠ [] ∧ (kv.2.headD default).reference = kv.1

/-- Lower bound Go's unicode/utf8 accepts for the second byte of a
multi-byte sequence starting with `b0`. -/
def accLo (b0 : Nat) : Nat :=
  if b0 = 0xE0 then 0xA0 else if b0 = 0xF0 then 0x90 else 0x80

/-- Upper bound Go's unicode/utf8 accepts for the second byte of a
multi-byte sequence starting with `b0`. -/
def accHi (b0 : Nat) : Nat :=
  if b0 = 0xED then 0x9F else if b0 = 0xF4 then 0x8F else 0xBF

/-- Go's `utf8.DecodeRune` on the head of a byte sequence: the decoded code
point and the number of bytes consumed; every invalid, overlong, surrogate
or truncated sequence yields (U+FFFD, 1). -/
def decodeRune (l : List Nat) : Nat × Nat :=
  match l with
  | [] => (0xFFFD, 0)
  | b0 :: rest =>
    if b0 < 0x80 then (b0, 1)
    else if b0 < 0xC2 then (0xFFFD, 1)
    else if b0 < 0xE0 then
      match rest with
      | b1 :: _ =>
        if 0x80 ≤ b1 ∧ b1 ≤ 0xBF then ((b0 - 0xC0) * 64 + (b1 - 0x80), 2)
        else (0xFFFD, 1)
      | [] => (0xFFFD, 1)
    else if b0 < 0xF0 then
      match rest with
      | b1 :: b2 :: _ =>
        if (accLo b0 ≤ b1 ∧ b1 ≤ accHi b0) ∧ (0x80 ≤ b2 ∧ b2 ≤ 0xBF) then
          ((b0 - 0xE0) * 4096 + (b1 - 0x80) * 64 + (b2 - 0x80), 3)
        else (0xFFFD, 1)
      | _ => (0xFFFD, 1)
    else if b0 < 0xF5 then
      match rest with
      | b1 :: b2 :: b3 :: _ =>
        if (accLo b0 ≤ b1 ∧ b1 ≤ accHi b0) ∧ (0x80 ≤ b2 ∧ b2 ≤ 0xBF) ∧
           (0x80 ≤ b3 ∧ b3 ≤ 0xBF) then
          ((b0 - 0xF0) * 262144 + (b1 - 0x80) * 4096 + (b2 - 0x80) * 64 + (b3 - 0x80), 4)
        else (0xFFFD, 1)
      | _ => (0xFFFD, 1)
    else (0xFFFD, 1)

/-- Fuelled rune-by-rune pass of encoding/json's string coercion; the fuel
is an upper bound on the byte count and each step consumes at least one
byte, so fuel equal to the length is exact. -/
def utf8CoerceFuel : Nat → List Nat → List Nat
  | 0, _ => []
  | _, [] => []
  | fuel + 1, b0 :: rest =>
    let p := decodeRune (b0 :: rest)
    utf8EncodeChar p.1 ++ utf8CoerceFuel fuel ((b0 :: rest).drop (max p.2 1))

/-- encoding/json's documented coercion of a Go string to valid UTF-8 when
marshalling ("replacing invalid bytes with the Unicode replacement rune"):
decode runes Go-style and write each back in UTF-8.  On a valid UTF-8
string this is the identity. -/
def utf8Coerce (l : List Nat) : List Nat := utf8CoerceFuel l.length l

/-- JSON document values as encoding/json produces and consumes them for
this struct.  A Go `[]byte` field travels as a base64 string and base64
transport is lossless in both directions, so the byte payload is carried
directly (`jbytes`); a nil slice marshals as null and unmarshals back to a
slice the list model identifies with the empty one. -/
inductive JValue where
  | jnull
  | jbool (b : Bool)
  | jnum (n : Nat)
  | jstr (s : List Nat)
  | jbytes (b : List Nat)
  | jobj (fields : List (String × JValue))

/-- `MessageElements.ToJSON`: the document json.Marshal produces for the
struct and its field tags.  The `message` string field is coerced to valid
UTF-8 exactly as json.Marshal documents; every field is emitted (no
omitempty tags). -/
def toJSONValue (e : MessageElements) : JValue :=
  .jobj [("header_length", .jnum e.headerLength),
         ("element", .jnum e.element),
         ("element_length", .jnum e.elementLength),
         ("reference", .jbytes e.reference),
         ("total_parts", .jnum e.totalParts),
         ("current_part", .jnum e.currentPart),
         ("raw_message", .jbytes e.rawMessage),
         ("message", .jstr (utf8Coerce e.message)),
         ("encoding", .jnum (encodingToByte e.encoding)),
         ("standalone", .jbool e.standalone)]

/-- Field lookup in a JSON object (marshal output carries each key once). -/
def jLookup (fs : List (String × JValue)) (k : String) : Option JValue :=
  match fs with
  | [] => none
  | (k1, v) :: t => if k1 = k then some v else jLookup t k

/-- Unmarshal a JSON number into a Go `byte` field: an integer in 0..255. -/
def jByteField (v : Option JValue) : Option Nat :=
  match v with
  | some (.jnum n) => if n ≤ 255 then some n else none
  | _ => none

/-- Unmarshal a base64 JSON string (or null) into a Go `[]byte` field. -/
def jBytesField (v : Option JValue) : Option (List Nat) :=
  match v with
  | some (.jbytes b) => some b
  | some .jnull => some []
  | _ => none

/-- Unmarshal a JSON string into a Go string field. -/
def jStrField (v : Option JValue) : Option (List Nat) :=
  match v with
  | some (.jstr s) => some s
  | _ => none

/-- Unmarshal a JSON boolean into a Go bool field. -/
def jBoolField (v : Option JValue) : Option Bool :=
  match v with
  | some (.jbool b) => some b
  | _ => none

/-- Unmarshal a JSON number into the `Encoding` byte field (marshal output
only carries the enumeration values 0..16). -/
def jEncodingField (v : Option JValue) : Option Encoding :=
  match v with
  | some (.jnum n) => byteToEncoding n
  | _ => none

/-- `MessageElementFromJSON`: json.Unmarshal of a document into the struct,
reading each tagged field by name with its type check. -/
def fromJSONValue (v : JValue) : Option MessageElements :=
  match v with
  | .jobj fs => do
    let hl ← jByteField (jLookup fs "header_length")
    let el ← jByteField (jLookup fs "element")
    let ell ← jByteField (jLookup fs "element_length")
    let rf ← jBytesField (jLookup fs "reference")
    let tp ← jByteField (jLookup fs "total_parts")
    let cp ← jByteField (jLookup fs "current_part")
    let rm ← jBytesField (jLookup fs "raw_message")
    let m ← jStrField (jLookup fs "message")
    let en ← jEncodingField (jLookup fs "encoding")
    let sa ← jBoolField (jLookup fs "standalone")
    pure { headerLength := hl
           element := el
           elementLength := ell
           reference := rf
           totalParts := tp
           currentPart := cp
           rawMessage := rm
           message := m
           encoding := en
           standalone := sa }
  | _ => none

/-- The struct's numeric fields fit in a Go `byte`; automatic for every
value the Go types can hold, stated because the model widens byte to Nat. -/
abbrev byteSized (e : MessageElements) : Prop :=
  e.headerLength ≤ 255 ∧ e.element ≤ 255 ∧ e.elementLength ≤ 255 ∧
  e.totalParts ≤ 255 ∧ e.currentPart ≤ 255

/-- The standalone parse of hex input `776F726C64` (the word `world`)
under the GSM encoding, as in the package's usage example. -/
def worldPart : MessageElements :=
  { reference := [0], totalParts := 1, currentPart := 1,
    rawMessage := strBytes "world", message := strBytes "world",
    encoding := .GSM, standalone := true }

/-- A generic standalone part as the parser produces for any standalone
classification (total and current part 1, reference {0}). -/
def standalonePart : MessageElements :=
  { reference := [0], totalParts := 1, currentPart := 1, standalone := true }

/-- A minimal non-standalone part declaring one total part. -/
def plainPart : MessageElements := { totalParts := 1 }

/-- A minimal non-standalone part declaring three total parts. -/
def threePart : MessageElements := { totalParts := 3 }

/-- The ASCII parse of standalone hex input `00FF`: its decoded text is the
raw byte sequence 00 FF, which is not valid UTF-8. -/
def rawBytePart : MessageElements :=
  { reference := [0], totalParts := 1, currentPart := 1,
    rawMessage := [0x00, 0xFF], message := [0x00, 0xFF],
    encoding := .ASCII, standalone := true }

/-- First fragment of a two-part message with reference 0xA5 (from the
package's fragmentation example). -/
def partRefA : MessageElements :=
  { headerLength := 5, element := 0, elementLength := 3, reference := [0xA5],
    totalParts := 2, currentPart := 1, encoding := .GSM }

/-- A part carrying reference 0x12, distinct from 0xA5. -/
def partRefB : MessageElements :=
  { headerLength := 5, element := 0, elementLength := 3, reference := [0x12],
    totalParts := 2, currentPart := 2, encoding := .GSM }

/-- Every successful result of the information-element switch has the
standalone flag still at its zero value. -/
theorem parseIEI_not_standalone (binary : List Nat) (tmpLength : Nat)
    (enc : Encoding) (e : MessageElements)
    (h : parseIEI binary tmpLength enc = .ok e) : e.standalone = false := by
  unfold parseIEI at h
  split at h <;> [skip; split at h] <;> first
    | (split at h <;> first | (cases h; rfl) | cases h)
    | cases h
    | (split at h
       · cases h
       · split at h <;> first | (cases h; rfl) | cases h)

/-- Classification invariant: a successful parse flagged standalone carries
reference {0} (the only branch that sets the flag also forces the
reference). -/
theorem classify_standalone_ref (binary : List Nat) (enc : Encoding)
    (e : MessageElements) (h : classifyElements binary enc = .ok e)
    (hs : e.standalone = true) : e.reference = [0] := by
  unfold classifyElements at h
  dsimp only at h
  split at h
  · split at h
    · split at h
      · cases h
      · have := parseIEI_not_standalone _ _ _ _ h
        rw [hs] at this
        cases this
    · cases h
      rfl
  · cases h
    simp at hs

/-- C1: for the 8-bit binary encodings the text-decoding step does not
succeed.  `encodeMessage` assigns the lowercase hexadecimal rendering to
the text field but then calls `setTransformCharmap` through the
never-assigned (nil) decoder, so the whole parse panics on a nil-pointer
dereference — shown on the standalone input `0041` under both binary
variants, with the decode step itself shown panicking on the raw payload;
the intended hex rendering is `hexEncodeToString`, which is lowercase
(0xAB renders as `ab`). -/
theorem binary8bit_decode_panics :
    parseElements (strBytes "0041") .Binary8Bit1 = .panic ∧
    parseElements (strBytes "0041") .Binary8Bit2 = .panic ∧
    encodeMessage .Binary8Bit1 [0x00, 0x41] = .panic ∧
    encodeMessage .Binary8Bit2 [0x00, 0x41] = .panic ∧
    hexEncodeToString [0xAB, 0x00] = strBytes "ab00" := by
  refine ⟨by decide, by decide, by decide, by decide, by decide⟩

/-- C2: a UDH-classified input whose identifier is 0x00 and whose decoded
sequence has fewer than 6 octets does not make parse return an error: the
unchecked reads of octets 3, 4 and 5 run past the end of the sequence and
panic (index out of range), shown on the 3-, 4- and 5-octet inputs
`010000`, `01000000` and `0100000000`; on a long enough input the claimed
offsets do hold (reference = octet 3, total parts = octet 4, current part
= octet 5, as in `0500030F030368656C6C6F`). -/
theorem iei00_short_input_panics :
    parseElements (strBytes "010000") .GSM = .panic ∧
    parseElements (strBytes "01000000") .GSM = .panic ∧
    parseElements (strBytes "0100000000") .GSM = .panic ∧
    parseElements (strBytes "0500030F030368656C6C6F") .GSM =
      .ok { headerLength := 5
            element := 0
            elementLength := 3
            reference := [0x0F]
            totalParts := 3
            currentPart := 3
            rawMessage := strBytes "hello"
            message := strBytes "hello"
            encoding := .GSM
            standalone := false } := by
  refine ⟨by decide, by decide, by decide, by decide⟩

/-- C8: any hex input with an odd character count fails with the
odd-length error before anything else runs, and no part is produced. -/
theorem odd_length_parse_fails (msg : List Nat) (enc : Encoding)
    (h : msg.length % 2 ≠ 0) :
    parseElements msg enc = .err .hexStringMustHaveAnEvenNumberOfChars := by
  unfold parseElements
  rw [if_pos h]

/-- C8 witness: the single-character input `F` fails with the odd-length
error. -/
theorem odd_length_parse_fails_witness :
    parseElements (strBytes "F") Encoding.GSM =
      .err .hexStringMustHaveAnEvenNumberOfChars :=
  odd_length_parse_fails (strBytes "F") Encoding.GSM (by decide)

/-- C6: adding a part whose reference differs from a non-empty set's
reference (its first member's reference) fails with the
reference-mismatch error and returns the slice exactly as it was: nothing
is appended and the existing member order is untouched. -/
theorem fragments_add_mismatch (first info : MessageElements)
    (rest : List MessageElements) (h : first.reference ≠ info.reference) :
    MessageFragmentations.addMessageElements (first :: rest) info =
      (some .invalidReferenceNumber, first :: rest) := by
  unfold MessageFragmentations.addMessageElements
  dsimp only
  rw [if_neg h]

/-- C6 witness: inserting the reference-0x12 part into the singleton set
holding the reference-0xA5 part fails and leaves the set as it was. -/
theorem fragments_add_mismatch_witness :
    MessageFragmentations.addMessageElements [partRefA] partRefB =
      (some .invalidReferenceNumber, [partRefA]) :=
  fragments_add_mismatch partRefA partRefB [] (by decide)

/-- C5: the completeness check is true exactly when the set is non-empty
and either its first member is standalone, or its first member declares
zero total parts and zero current part while carrying non-empty decoded
text, or the member count equals the first member's declared total; in
particular, for any set whose first member is a non-standalone part
declaring 3 total parts — whatever the insertion order put first —
completeness holds exactly at member count 3. -/
theorem haveAllFragments_characterization (first : MessageElements)
    (rest : List MessageElements) :
    (haveAllFragments [] = false) ∧
    (haveAllFragments (first :: rest) = true ↔
      (first.standalone = true ∨
       (first.totalParts = 0 ∧ first.currentPart = 0 ∧ first.message ≠ []) ∨
       (first :: rest).length = first.totalParts)) ∧
    (first.standalone = false → first.totalParts = 3 →
      (haveAllFragments (first :: rest) = true ↔ rest.length + 1 = 3)) := by
  refine ⟨rfl, ?_, ?_⟩
  · unfold haveAllFragments
    dsimp only
    by_cases hs : first.standalone = true
    · simp [hs]
    · by_cases hd : first.totalParts = 0 ∧ first.currentPart = 0 ∧
          0 < first.message.length
      · simp [hs, hd, List.length_pos.mp hd.2.2]
      · rw [if_neg hs, if_neg hd]
        simp only [decide_eq_true_eq]
        constructor
        · intro hc
          exact Or.inr (Or.inr hc)
        · intro hc
          rcases hc with hc | hc | hc
          · exact absurd hc hs
          · exact absurd ⟨hc.1, hc.2.1, List.length_pos.mpr hc.2.2⟩ hd
          · exact hc
  · intro hs h3
    unfold haveAllFragments
    dsimp only
    rw [if_neg (by simp [hs]), if_neg (by simp [h3])]
    simp only [decide_eq_true_eq, List.length_cons, h3]

/-- C5 witness: with a non-standalone first member declaring 3 total
parts, completeness fails at counts 1 and 2 and holds at count 3; the
empty set is incomplete; and the characterizing disjunction holds for a
singleton standalone set. -/
theorem haveAllFragments_characterization_witness :
    haveAllFragments [] = false ∧
    (haveAllFragments [standalonePart] = true ↔
      (standalonePart.standalone = true ∨
       (standalonePart.totalParts = 0 ∧ standalonePart.currentPart = 0 ∧
        standalonePart.message ≠ []) ∨
       ([standalonePart] : List MessageElements).length =
         standalonePart.totalParts)) ∧
    (haveAllFragments [threePart] = true ↔ 0 + 1 = 3) ∧
    (haveAllFragments [threePart, threePart] = true ↔ 1 + 1 = 3) ∧
    (haveAllFragments [threePart, threePart, threePart] = true ↔ 2 + 1 = 3) :=
  ⟨(haveAllFragments_characterization standalonePart []).1,
   (haveAllFragments_characterization standalonePart []).2.1,
   (haveAllFragments_characterization threePart []).2.2 (by decide) (by decide),
   (haveAllFragments_characterization threePart [threePart]).2.2 (by decide)
     (by decide),
   (haveAllFragments_characterization threePart [threePart, threePart]).2.2
     (by decide) (by decide)⟩

/-- C10 counterexample: a set of two standalone members has member count
2, strictly more than its first member's declared total of 1, and the
completeness check still returns true — the standalone branch
short-circuits before the count comparison. -/
theorem completeness_overfull_counterexample :
    haveAllFragments [standalonePart, standalonePart] = true ∧
    standalonePart.totalParts <
      ([standalonePart, standalonePart] : List MessageElements).length := by
  refine ⟨by decide, by decide⟩

/-- C10 amended: when the first member is neither standalone nor the
degenerate zero-total, zero-index, non-empty-text case, a member count
strictly above the first member's declared total makes the completeness
check return false — the count is compared with strict equality, not
greater-or-equal. -/
theorem completeness_overfull_false (first : MessageElements)
    (rest : List MessageElements) (hs : first.standalone = false)
    (hd : ¬(first.totalParts = 0 ∧ first.currentPart = 0 ∧ first.message ≠ []))
    (hc : first.totalParts < (first :: rest).length) :
    haveAllFragments (first :: rest) = false := by
  unfold haveAllFragments
  dsimp only
  rw [if_neg (by simp [hs])]
  rw [if_neg (fun hx => hd ⟨hx.1, hx.2.1, List.length_pos.mp hx.2.2⟩)]
  exact decide_eq_false (by omega)

/-- C10 witness: duplicating the one-total-part member gives count 2 above
total 1 and the set is reported incomplete. -/
theorem completeness_overfull_false_witness :
    haveAllFragments [plainPart, plainPart] = false :=
  completeness_overfull_false plainPart [plainPart] (by decide) (by decide)
    (by decide)

/-- C4: an even-length valid hex input with at least 2 decoded octets that
fails the UDH classification test parses as standalone: the flag is set,
total-part count and current-part index are 1, the reference is {0} and
the raw payload is the entire decoded octet sequence — for the result of
any encoding, and under the GSM encoding the parse always succeeds. -/
theorem standalone_parse_fields (msg binary : List Nat) (enc : Encoding)
    (heven : msg.length % 2 = 0) (hdec : hexDecode msg = some binary)
    (hlen : 2 ≤ binary.length)
    (hcls : ¬(0 < binary.getD 0 0 ∧ binary.getD 0 0 < binary.length - 1 ∧
              binary.getD 1 0 < rfc822Element)) :
    (∀ e, parseElements msg enc = .ok e →
       e.standalone = true ∧ e.totalParts = 1 ∧ e.currentPart = 1 ∧
       e.reference = [0] ∧ e.rawMessage = binary) ∧
    (∃ e, parseElements msg .GSM = .ok e) := by
  have hcl : ∀ enc2 : Encoding, classifyElements binary enc2 =
      .ok { encoding := enc2, standalone := true, reference := [0],
            totalParts := 1, currentPart := 1, rawMessage := binary } := by
    intro enc2
    unfold classifyElements
    dsimp only
    rw [if_pos hlen, if_neg hcls]
  have hpar : ∀ enc2 : Encoding, parseElements msg enc2 =
      (match encodeMessage enc2 binary with
       | .ok m =>
         .ok { encoding := enc2, standalone := true, reference := [0],
               totalParts := 1, currentPart := 1, rawMessage := binary,
               message := m }
       | .err e => .err e
       | .panic => .panic) := by
    intro enc2
    unfold parseElements
    rw [if_neg (not_not_intro heven), hdec]
    dsimp only
    rw [hcl enc2]
  constructor
  · intro e he
    rw [hpar enc] at he
    cases henc : encodeMessage enc binary with
    | ok m =>
      rw [henc] at he
      dsimp only at he
      cases he
      exact ⟨rfl, rfl, rfl, rfl, rfl⟩
    | err e2 => rw [henc] at he; cases he
    | panic => rw [henc] at he; cases he
  · exact ⟨{ encoding := .GSM, standalone := true, reference := [0],
             totalParts := 1, currentPart := 1, rawMessage := binary,
             message := gsm0338ToUTF8 binary },
           by rw [hpar Encoding.GSM]; rfl⟩

/-- C4 witness: the standalone input `776F726C64` decodes to the octets of
`world`, fails the classification test and parses under GSM to a part with
the claimed fields. -/
theorem standalone_parse_fields_witness :
    worldPart.standalone = true ∧ worldPart.totalParts = 1 ∧
    worldPart.currentPart = 1 ∧ worldPart.reference = [0] ∧
    worldPart.rawMessage = strBytes "world" :=
  (standalone_parse_fields (strBytes "776F726C64") (strBytes "world")
      Encoding.GSM (by decide) (by decide) (by decide) (by decide)).1
    worldPart (by decide)

/-- Decoding the numeric value of an encoding tag gives back the tag. -/
theorem byteToEncoding_encodingToByte (e : Encoding) :
    byteToEncoding (encodingToByte e) = some e := by
  cases e <;> rfl

/-- C7 counterexample: the round trip is not the identity on every part.
For the ASCII-parsed standalone part of input `00FF` the decoded text is
the byte sequence 00 FF, which is not valid UTF-8; serializing coerces it
to 00 EF BF BD (U+FFFD), so deserializing the serialized form returns a
part unequal to the original. -/
theorem json_round_trip_counterexample :
    fromJSONValue (toJSONValue rawBytePart) =
      some { rawBytePart with message := [0x00, 0xEF, 0xBF, 0xBD] } ∧
    fromJSONValue (toJSONValue rawBytePart) ≠ some rawBytePart := by
  refine ⟨by decide, by decide⟩

/-- The counterexample part is produced by the parser itself. -/
theorem rawBytePart_from_parse :
    parseElements (strBytes "00FF") .ASCII = .ok rawBytePart := by decide

/-- C7 amended: the JSON round trip reproduces every field of a part whose
decoded text is valid UTF-8 (a fixed point of the documented marshal-time
coercion); the numeric fields are within byte range, as Go's `byte` fields
force for every representable value. -/
theorem json_round_trip_valid_utf8 (p : MessageElements) (hb : byteSized p)
    (hm : utf8Coerce p.message = p.message) :
    fromJSONValue (toJSONValue p) = some p := by
  obtain ⟨hl, el, ell, rf, tp, cp, rm, m, en, sa⟩ := p
  obtain ⟨h1, h2, h3, h4, h5⟩ := hb
  simp [fromJSONValue, toJSONValue, jLookup, jByteField, jBytesField,
        jStrField, jBoolField, jEncodingField, byteToEncoding_encodingToByte,
        hm, h1, h2, h3, h4, h5]

/-- C7 witness: the GSM-parsed `world` part (valid UTF-8 text) survives the
round trip unchanged. -/
theorem json_round_trip_valid_utf8_witness :
    fromJSONValue (toJSONValue worldPart) = some worldPart :=
  json_round_trip_valid_utf8 worldPart (by decide) (by decide)

/-- A successful map lookup locates a binding of the map. -/
theorem lookupStore_mem (s : FragmentMap) (k : List Nat)
    (v : MessageFragmentations) (h : lookupStore s k = some v) : (k, v) ∈ s := by
  induction s with
  | nil => cases h
  | cons kv t ih =>
    obtain ⟨k1, v1⟩ := kv
    unfold lookupStore at h
    split at h
    · cases h
      subst ‹k1 = k›
      exact List.mem_cons_self _ _
    · exact List.mem_cons_of_mem _ (ih h)

/-- Reading back the key just written returns the value just written. -/
theorem lookupStore_storeSet_self (s : FragmentMap) (k : List Nat)
    (v : MessageFragmentations) : lookupStore (storeSet s k v) k = some v := by
  induction s with
  | nil => simp [storeSet, lookupStore]
  | cons kv t ih =>
    obtain ⟨k1, v1⟩ := kv
    by_cases hk : k1 = k
    · simp [storeSet, hk, lookupStore]
    · simp [storeSet, hk, lookupStore, ih]

/-- Writing a non-empty slice whose first member's reference equals the
key preserves the store's construction invariant. -/
theorem storeInv_storeSet (s : FragmentMap) (k : List Nat)
    (v : MessageFragmentations) (hv : v ≠ [])
    (hr : (v.headD default).reference = k) :
    storeInv s → storeInv (storeSet s k v) := by
  induction s with
  | nil =>
    intro _ kv hkv
    simp [storeSet] at hkv
    subst hkv
    exact ⟨hv, hr⟩
  | cons kv0 t ih =>
    obtain ⟨k1, v1⟩ := kv0
    intro hinv kv hkv
    by_cases hk : k1 = k
    · rw [show storeSet ((k1, v1) :: t) k v = (k, v) :: t from by
        simp [storeSet, hk]] at hkv
      rcases List.mem_cons.mp hkv with h | h
      · subst h
        exact ⟨hv, hr⟩
      · exact hinv kv (List.mem_cons_of_mem _ h)
    · rw [show storeSet ((k1, v1) :: t) k v = (k1, v1) :: storeSet t k v from by
        simp [storeSet, hk]] at hkv
      rcases List.mem_cons.mp hkv with h | h
      · subst h
        exact hinv (k1, v1) (List.mem_cons_self _ _)
      · exact ih (fun kv2 hm => hinv kv2 (List.mem_cons_of_mem _ hm)) kv h

/-- Any successful parse whose result is flagged standalone carries
reference {0}: the only code path that sets the flag also forces the
reference, and the decoded-text step touches neither field. -/
theorem parse_standalone_ref (msg : List Nat) (enc : Encoding)
    (e : MessageElements) (h : parseElements msg enc = .ok e)
    (hs : e.standalone = true) : e.reference = [0] := by
  unfold parseElements at h
  split at h
  · cases h
  · split at h
    · cases h
    · rename_i binary heq
      split at h
      · rename_i elements hcl
        split at h
        · rename_i m henc
          cases h
          exact classify_standalone_ref binary enc elements hcl hs
        · cases h
        · cases h
      · cases h
      · cases h

/-- Inserting a reference-{0} part into a store satisfying the
construction invariant always succeeds, appending the part to the single
{0}-keyed fragment set (creating it if needed) and preserving the
invariant. -/
theorem store_insert_ref_zero (s : FragmentMap) (info : MessageElements)
    (hinv : storeInv s) (href : info.reference = [0]) :
    Messages.addMessageElements s info =
      (none, storeSet s [0] ((lookupStore s [0]).getD [] ++ [info])) ∧
    lookupStore (storeSet s [0] ((lookupStore s [0]).getD [] ++ [info])) [0] =
      some ((lookupStore s [0]).getD [] ++ [info]) ∧
    storeInv (storeSet s [0] ((lookupStore s [0]).getD [] ++ [info])) := by
  cases hlook : lookupStore s [0] with
  | none =>
    refine ⟨?_, ?_, ?_⟩
    · unfold Messages.addMessageElements
      rw [href, hlook]
      rfl
    · exact lookupStore_storeSet_self s [0] (Option.getD none [] ++ [info])
    · refine storeInv_storeSet s [0] (Option.getD none [] ++ [info]) (by simp)
        ?_ hinv
      simpa using href
  | some frag =>
    obtain ⟨hne, hhead⟩ := hinv ([0], frag) (lookupStore_mem s [0] frag hlook)
    cases frag with
    | nil => exact absurd rfl hne
    | cons f t =>
      have hf : f.reference = [0] := by simpa using hhead
      refine ⟨?_, ?_, ?_⟩
      · unfold Messages.addMessageElements
        rw [href, hlook]
        unfold MessageFragmentations.addMessageElements
        dsimp only
        rw [if_pos (by rw [href]; exact hf)]
        rfl
      · exact lookupStore_storeSet_self s [0]
          (Option.getD (some (f :: t)) [] ++ [info])
      · refine storeInv_storeSet s [0]
          (Option.getD (some (f :: t)) [] ++ [info]) (by simp) ?_ hinv
        simpa using hf

/-- C9: (i) every parse flagged standalone yields reference {0}; (ii)
under the store's construction invariant, adding any reference-{0} part
through `Messages.AddMessageElements` succeeds — never a reference
mismatch — and appends it to the single {0}-keyed fragment set, keeping
the invariant; (iii) the same through `Messages.Add` for any input that
parses standalone.  So all standalone messages, whatever their payloads,
accumulate in the one set keyed by {0}. -/
theorem standalone_single_bucket :
    (∀ (msg : List Nat) (enc : Encoding) (e : MessageElements),
       parseElements msg enc = .ok e → e.standalone = true →
       e.reference = [0]) ∧
    (∀ (s : FragmentMap) (info : MessageElements), storeInv s →
       info.reference = [0] →
       Messages.addMessageElements s info =
         (none, storeSet s [0] ((lookupStore s [0]).getD [] ++ [info])) ∧
       lookupStore (storeSet s [0] ((lookupStore s [0]).getD [] ++ [info]))
           [0] =
         some ((lookupStore s [0]).getD [] ++ [info]) ∧
       storeInv (storeSet s [0] ((lookupStore s [0]).getD [] ++ [info]))) ∧
    (∀ (s : FragmentMap) (msg : List Nat) (enc : Encoding)
       (e : MessageElements), storeInv s → parseElements msg enc = .ok e →
       e.standalone = true →
       Messages.add s enc msg =
         .ok (storeSet s [0] ((lookupStore s [0]).getD [] ++ [e]))) := by
  refine ⟨parse_standalone_ref, store_insert_ref_zero, ?_⟩
  intro s msg enc e hinv hp hs
  have href := parse_standalone_ref msg enc e hp hs
  unfold Messages.add
  rw [hp]
  dsimp only
  rw [href]
  cases hlook : lookupStore s [0] with
  | none => rfl
  | some frag =>
    obtain ⟨hne, hhead⟩ := hinv ([0], frag) (lookupStore_mem s [0] frag hlook)
    cases frag with
    | nil => exact absurd rfl hne
    | cons f t =>
      have hf : f.reference = [0] := by simpa using hhead
      unfold MessageFragmentations.addMessageElements
      dsimp only
      rw [if_pos (by rw [href]; exact hf)]
      rfl

/-- C9 witness: a store already holding the standalone `world` part under
key {0} accepts the same standalone message again — by direct part
insertion and by raw add — appending it to that one set. -/
theorem standalone_single_bucket_witness :
    worldPart.reference = [0] ∧
    Messages.addMessageElements [([0], [worldPart])] worldPart =
      (none, storeSet [([0], [worldPart])] [0]
        ((lookupStore [([0], [worldPart])] [0]).getD [] ++ [worldPart])) ∧
    Messages.add [([0], [worldPart])] .GSM (strBytes "776F726C64") =
      .ok (storeSet [([0], [worldPart])] [0]
        ((lookupStore [([0], [worldPart])] [0]).getD [] ++ [worldPart])) :=
  ⟨standalone_single_bucket.1 (strBytes "776F726C64") .GSM worldPart
     (by decide) (by decide),
   (standalone_single_bucket.2.1 [([0], [worldPart])] worldPart (by decide)
     (by decide)).1,
   standalone_single_bucket.2.2 [([0], [worldPart])] (strBytes "776F726C64")
     .GSM worldPart (by decide) (by decide) (by decide)⟩

end Smudh
